import Mathlib

/-!
Shallow embedding of the RollupX sequencer core and verification of spec claims.

Source files embedded: src/types.rs, src/state/cache.rs, src/validation/validator.rs,
src/pool/tx_pool.rs, src/pool/forced_queue.rs, src/scheduler/policies.rs,
src/scheduler/scheduler.rs, src/batch/engine.rs, src/batch/orchestrator.rs,
src/api/server.rs.

Modelling conventions:
- Machine integers (u64, U256) are Nat with explicit bounds. Rust release-mode
  wrapping arithmetic is modelled with explicit `% 2 ^ 64`; the ethers U256 type
  (crate primitive-types) has Add and Mul implementations that abort on overflow
  in every build profile, which is modelled by Option-returning checked operations
  where `none` stands for the abort (panic).
- Addresses (20 bytes) and hashes (32 bytes) are Nat; the ECDSA recovery of
  src/validation/validator.rs and the Keccak hash of src/types.rs are modelled as
  oracle parameters, since both are deterministic functions of the transaction.
- Async locks disappear in the sequential model: the state cache is a partial map
  from address to account, the pools are lists in FIFO order.
-/

namespace Sequencer

/-- Modulus of the 64-bit unsigned machine integers used for gas accounting. -/
def U64_MOD : Nat := 2 ^ 64

/-- Largest u64 value, the result of a saturated u64 addition. -/
def U64_MAX : Nat := 2 ^ 64 - 1

/-- Modulus of the 256-bit unsigned integers (ethers U256) used for balances. -/
def U256_MOD : Nat := 2 ^ 256

/-- User transaction submitted to L2 (struct UserTransaction, src/types.rs).
The Rust field `from` is renamed `fromAddr` because `from` is a Lean keyword;
`signature` keeps only an abstract payload, signature recovery being an oracle. -/
structure UserTransaction where
  fromAddr : Nat
  toAddr : Nat
  value : Nat
  nonce : Nat
  gas_price : Nat
  gas_limit : Nat
  signature : Nat
  timestamp : Nat
  boost_bid : Option Nat
deriving DecidableEq

/-- Type of forced transaction event from L1 (enum ForcedEventType, src/types.rs). -/
inductive ForcedEventType where
  | Deposit : ForcedEventType
  | ForcedExit : ForcedEventType
deriving DecidableEq

/-- Forced transaction from L1 (struct ForcedTransaction, src/types.rs). -/
structure ForcedTransaction where
  tx_hash : Nat
  fromAddr : Nat
  toAddr : Nat
  value : Nat
  nonce : Nat
  gas_limit : Nat
  l1_tx_hash : Nat
  l1_block_number : Nat
  event_type : ForcedEventType
  timestamp : Nat
deriving DecidableEq

/-- Generic transaction (enum Transaction, src/types.rs). -/
inductive Transaction where
  | Normal : UserTransaction → Transaction
  | Forced : ForcedTransaction → Transaction
deriving DecidableEq

/-- Gas limit of a transaction (Transaction::gas_limit, src/types.rs). -/
def Transaction.gas_limit : Transaction → Nat
  | Transaction.Normal tx => tx.gas_limit
  | Transaction.Forced tx => tx.gas_limit

/-- Account state (struct AccountState, src/types.rs). -/
structure AccountState where
  address : Nat
  balance : Nat
  nonce : Nat
deriving DecidableEq

/-- Sealed batch (struct Batch, src/types.rs). -/
structure Batch where
  batch_id : Nat
  transactions : List Transaction
  prev_state_root : Nat
  timestamp : Nat
deriving DecidableEq

/-- Validation errors (enum ValidationError, src/types.rs). -/
inductive ValidationError where
  | InvalidSignature : ValidationError
  | InvalidNonce : Nat → Nat → ValidationError
  | InsufficientBalance : Nat → Nat → ValidationError
deriving DecidableEq

/-- Display form of a validation error (impl Display for ValidationError,
src/types.rs); used verbatim as the rejection reason of a soft confirmation. -/
def valErrorDisplay : ValidationError → String
  | ValidationError.InvalidSignature => "Invalid transaction signature"
  | ValidationError.InvalidNonce expected got =>
      "Invalid nonce: expected " ++ toString expected ++ ", got " ++ toString got
  | ValidationError.InsufficientBalance required available =>
      "Insufficient balance: required " ++ toString required ++ ", available " ++ toString available

/-- Status of a soft confirmation (enum ConfirmationStatus, src/types.rs). -/
inductive ConfirmationStatus where
  | Accepted : ConfirmationStatus
  | Rejected : String → ConfirmationStatus
deriving DecidableEq

/-- Soft confirmation sent to users after validation (struct SoftConfirmation,
src/types.rs). -/
structure SoftConfirmation where
  tx_hash : Nat
  status : ConfirmationStatus
  timestamp : Nat
deriving DecidableEq

/-- In-memory account map of the state cache (struct StateCache, src/state/cache.rs),
modelled as a partial function from address to account state. -/
def StateCacheMap : Type := Nat → Option AccountState

/-- Account lookup with defaults (StateCache::get_or_init_account, src/state/cache.rs):
returns the stored account or a default with zero balance and zero nonce, without
inserting anything. -/
def get_or_init_account (cache : StateCacheMap) (address : Nat) : AccountState :=
  match cache address with
  | some account => account
  | none => { address := address, balance := 0, nonce := 0 }

/-- Nonce increment (StateCache::increment_nonce, src/state/cache.rs): an existing
account has its u64 nonce incremented (release-mode wrap, hence the mod), a missing
account is inserted with nonce 1 and zero balance. -/
def increment_nonce (cache : StateCacheMap) (address : Nat) : StateCacheMap :=
  fun a =>
    if a = address then
      match cache address with
      | some account => some { account with nonce := (account.nonce + 1) % U64_MOD }
      | none => some { address := address, balance := 0, nonce := 1 }
    else cache a

/-- Checked 256-bit multiplication. The ethers U256 Mul aborts on overflow in all
build profiles; `none` models that abort. -/
def u256CheckedMul (a b : Nat) : Option Nat :=
  if a * b < U256_MOD then some (a * b) else none

/-- Checked 256-bit addition. The ethers U256 Add aborts on overflow in all build
profiles; `none` models that abort. -/
def u256CheckedAdd (a b : Nat) : Option Nat :=
  if a + b < U256_MOD then some (a + b) else none

/-- Signature check (Validator::verify_signature, src/validation/validator.rs).
The oracle `recover` stands for `tx.signature.recover(tx.hash())`: `none` when
recovery errors, otherwise the recovered address. -/
def verify_signature (recover : UserTransaction → Option Nat)
    (tx : UserTransaction) : Except ValidationError Unit :=
  match recover tx with
  | none => Except.error ValidationError.InvalidSignature
  | some recovered_address =>
    if recovered_address ≠ tx.fromAddr then Except.error ValidationError.InvalidSignature
    else Except.ok ()

/-- Nonce check (Validator::check_nonce, src/validation/validator.rs). -/
def check_nonce (cache : StateCacheMap) (tx : UserTransaction) : Except ValidationError Unit :=
  let account := get_or_init_account cache tx.fromAddr
  if tx.nonce ≠ account.nonce then
    Except.error (ValidationError.InvalidNonce account.nonce tx.nonce)
  else Except.ok ()

/-- Balance check (Validator::check_balance, src/validation/validator.rs):
`gas_cost = tx.gas_price * 21000`, `required = tx.value + gas_cost`, both with the
panicking U256 arithmetic of the source (outer `none` models the panic); fails with
InsufficientBalance when `balance < required`. -/
def check_balance (cache : StateCacheMap) (tx : UserTransaction) :
    Option (Except ValidationError Unit) :=
  let account := get_or_init_account cache tx.fromAddr
  match u256CheckedMul tx.gas_price 21000 with
  | none => none
  | some gas_cost =>
    match u256CheckedAdd tx.value gas_cost with
    | none => none
    | some required =>
      if account.balance < required then
        some (Except.error (ValidationError.InsufficientBalance required account.balance))
      else some (Except.ok ())

/-- Full validation (Validator::validate, src/validation/validator.rs): signature,
then nonce, then balance, first failure wins; `none` models a panic in the balance
arithmetic. -/
def validate (recover : UserTransaction → Option Nat) (cache : StateCacheMap)
    (tx : UserTransaction) : Option (Except ValidationError Unit) :=
  match verify_signature recover tx with
  | Except.error e => some (Except.error e)
  | Except.ok _ =>
    match check_nonce cache tx with
    | Except.error e => some (Except.error e)
    | Except.ok _ => check_balance cache tx

/-- Claim-side description of validation, written from the words of the spec
(section 4.2): ordered checks with first failure winning, where
`required = tx.value + tx.gas_price * 21000` is exact integer arithmetic.
Used to compare the source validator against the spec sentence by sentence. -/
def validateSpec (recover : UserTransaction → Option Nat) (cache : StateCacheMap)
    (tx : UserTransaction) : Except ValidationError Unit :=
  let account := get_or_init_account cache tx.fromAddr
  let required := tx.value + tx.gas_price * 21000
  match recover tx with
  | none => Except.error ValidationError.InvalidSignature
  | some recovered_address =>
    if recovered_address ≠ tx.fromAddr then Except.error ValidationError.InvalidSignature
    else if tx.nonce ≠ account.nonce then
      Except.error (ValidationError.InvalidNonce account.nonce tx.nonce)
    else if account.balance < required then
      Except.error (ValidationError.InsufficientBalance required account.balance)
    else Except.ok ()

/-- Admission operation (handle_send_transaction, src/api/server.rs), after JSON
decoding: validate; on success increment the nonce of the sender, append the
transaction to the pool and answer Accepted; on a validation error leave cache and
pool unchanged and answer Rejected with the display string of the error. `txHash`
stands for UserTransaction::hash (a deterministic Keccak digest); `none` models a
panic escaping from the validator. -/
def handle_send_transaction (recover : UserTransaction → Option Nat)
    (txHash : UserTransaction → Nat) (cache : StateCacheMap)
    (pool : List UserTransaction) (tx : UserTransaction) (now : Nat) :
    Option (SoftConfirmation × StateCacheMap × List UserTransaction) :=
  match validate recover cache tx with
  | none => none
  | some (Except.ok _) =>
    some (SoftConfirmation.mk (txHash tx) ConfirmationStatus.Accepted now,
      increment_nonce cache tx.fromAddr, pool ++ [tx])
  | some (Except.error e) =>
    some (SoftConfirmation.mk (txHash tx) (ConfirmationStatus.Rejected (valErrorDisplay e)) now,
      cache, pool)

/-- Rust `u64::cmp` (total order comparison on Nat values standing for u64). -/
def natCmp (a b : Nat) : Ordering :=
  if a < b then Ordering.lt else if b < a then Ordering.gt else Ordering.eq

namespace FcfsPolicy

/-- FCFS ordering (FcfsPolicy::order_transactions, src/scheduler/policies.rs):
the input order is kept, no sorting. -/
def order_transactions (transactions : List UserTransaction) : List UserTransaction :=
  transactions

end FcfsPolicy

/-- Comparison relation realising the FeePriority comparator
`|a, b| b.gas_price.cmp(&a.gas_price)`: `a` may be placed before `b` exactly when
the comparator does not answer Greater, that is when `b.gas_price ≤ a.gas_price`. -/
def feePriorityLe (a b : UserTransaction) : Prop :=
  b.gas_price ≤ a.gas_price

instance : DecidableRel feePriorityLe :=
  fun a b => inferInstanceAs (Decidable (b.gas_price ≤ a.gas_price))

namespace FeePriorityPolicy

/-- FeePriority ordering (FeePriorityPolicy::order_transactions,
src/scheduler/policies.rs): stable sort by gas price descending. Rust
`slice::sort_by` is a stable sort; for a total preorder the stable sorted
permutation is unique, so it is modelled by `List.insertionSort`, which inserts
each element after the already placed ties and is therefore stable. -/
def order_transactions (transactions : List UserTransaction) : List UserTransaction :=
  transactions.insertionSort feePriorityLe

end FeePriorityPolicy

/-- TimeBoost comparator (closure inside TimeBoostPolicy::order_transactions,
src/scheduler/policies.rs): time window ascending, then boost bid descending with
a missing bid read as zero, then gas price descending. The window is the u64
division `timestamp / time_window_ms`, whose Rust evaluation aborts when the
divisor is zero; totality is handled at the call site in `order_transactions`. -/
def timeBoostCmp (time_window_ms : Nat) (a b : UserTransaction) : Ordering :=
  match natCmp (a.timestamp / time_window_ms) (b.timestamp / time_window_ms) with
  | Ordering.eq =>
    match natCmp (b.boost_bid.getD 0) (a.boost_bid.getD 0) with
    | Ordering.eq => natCmp b.gas_price a.gas_price
    | o => o
  | o => o

/-- Relation form of the TimeBoost comparator: `a` may precede `b` when the
comparator does not answer Greater. -/
def timeBoostLe (time_window_ms : Nat) (a b : UserTransaction) : Prop :=
  timeBoostCmp time_window_ms a b ≠ Ordering.gt

instance (w : Nat) : DecidableRel (timeBoostLe w) :=
  fun a b => inferInstanceAs (Decidable (timeBoostCmp w a b ≠ Ordering.gt))

namespace TimeBoostPolicy

/-- TimeBoost ordering (TimeBoostPolicy::order_transactions,
src/scheduler/policies.rs). Rust `sort_by` invokes the comparator if and only if
the slice has at least two elements, and every invocation of this comparator
first evaluates `a.timestamp / self.time_window_ms`, a u64 division that aborts
(panics) when `time_window_ms` is zero; `none` models that abort. Otherwise the
result is the stable sort by the comparator, modelled by `List.insertionSort`
as for FeePriority. -/
def order_transactions (time_window_ms : Nat) (transactions : List UserTransaction) :
    Option (List UserTransaction) :=
  if 2 ≤ transactions.length ∧ time_window_ms = 0 then none
  else some (transactions.insertionSort (timeBoostLe time_window_ms))

end TimeBoostPolicy

/-- Sorting key of the TimeBoost policy as named by the spec: the triple of time
window, boost bid (zero when missing) and gas price. Two transactions compare
equal under the TimeBoost comparator exactly when their keys coincide. -/
def timeBoostKey (time_window_ms : Nat) (t : UserTransaction) : Nat × Nat × Nat :=
  (t.timestamp / time_window_ms, t.boost_bid.getD 0, t.gas_price)

/-- Comparison relation realising the FairBFT comparator
`|a, b| a.timestamp.cmp(&b.timestamp)`: timestamp ascending. -/
def fairBftLe (a b : UserTransaction) : Prop :=
  a.timestamp ≤ b.timestamp

instance : DecidableRel fairBftLe :=
  fun a b => inferInstanceAs (Decidable (a.timestamp ≤ b.timestamp))

namespace FairBftPolicy

/-- FairBFT ordering (FairBftPolicy::order_transactions,
src/scheduler/policies.rs): stable sort by timestamp ascending, modelled by
`List.insertionSort` as for FeePriority. -/
def order_transactions (transactions : List UserTransaction) : List UserTransaction :=
  transactions.insertionSort fairBftLe

end FairBftPolicy

/-- Scheduling (Scheduler::schedule, src/scheduler/scheduler.rs): all forced
transactions first in their input order, then the normal transactions in the
order produced by the selected policy. The policy is passed as its ordering
function. -/
def schedule (order_fn : List UserTransaction → List UserTransaction)
    (forced : List ForcedTransaction) (normal : List UserTransaction) : List Transaction :=
  forced.map Transaction.Forced ++ (order_fn normal).map Transaction.Normal

/-- Batch configuration (struct BatchConfig, src/config.rs, together with the
`max_gas_limit` field the batch engine and orchestrator read from it). -/
structure BatchConfig where
  max_batch_size : Nat
  timeout_interval_ms : Nat
  min_batch_size : Nat
  max_gas_limit : Nat
deriving DecidableEq

/-- Exact (unbounded) sum of the gas limits of a list of transactions, the
quantity the spec constrains. -/
def sum_gas (txs : List Transaction) : Nat :=
  (txs.map Transaction.gas_limit).sum

/-- The u64 running gas sum the engine computes with
`current_txs.iter().map(gas_limit).sum::<u64>()`: plain u64 addition, which wraps
modulo 2 ^ 64 under release semantics. -/
def sum_gas_u64 (txs : List Transaction) : Nat :=
  sum_gas txs % U64_MOD

/-- Gas gate (BatchEngine::can_add_transaction, src/batch/engine.rs): the wrapped
u64 sum of the current transactions, then one `saturating_add` of the candidate
gas limit (modelled by `min _ U64_MAX`), compared against `max_gas_limit`. -/
def can_add_transaction (cfg : BatchConfig) (current_txs : List Transaction)
    (new_tx : Transaction) : Bool :=
  decide (min (sum_gas_u64 current_txs + new_tx.gas_limit) U64_MAX ≤ cfg.max_gas_limit)

/-- Claim-side description of the gas gate, written from the words of the spec
(section 4.7): the exact sum of the current gas limits plus the candidate, the
whole computed with saturating addition, compared against `max_gas_limit`. Used
to compare the source gate against the spec. -/
def can_add_saturating_spec (cfg : BatchConfig) (current_txs : List Transaction)
    (new_tx : Transaction) : Bool :=
  decide (min (sum_gas current_txs + new_tx.gas_limit) U64_MAX ≤ cfg.max_gas_limit)

/-- Batch sealing (BatchEngine::create_batch, src/batch/engine.rs): wraps the
ordered transactions with the next sequential id, a zero previous state root and
the current timestamp. -/
def create_batch (next_batch_id : Nat) (transactions : List Transaction)
    (now : Nat) : Batch :=
  { batch_id := next_batch_id, transactions := transactions, prev_state_root := 0,
    timestamp := now }

/-- Step 1a of BatchOrchestrator::produce_batch (src/batch/orchestrator.rs):
every drained forced transaction is tested with `can_add_transaction` against the
accumulating accepted list; it is appended when it fits and dropped (with a log)
otherwise, the iteration continuing either way. -/
def accepted_forced_aux (cfg : BatchConfig) :
    List Transaction → List ForcedTransaction → List Transaction
  | acc, [] => acc
  | acc, tx :: rest =>
    if can_add_transaction cfg acc (Transaction.Forced tx) then
      accepted_forced_aux cfg (acc ++ [Transaction.Forced tx]) rest
    else
      accepted_forced_aux cfg acc rest

/-- Accepted forced transactions of a batch, starting from the empty prefix. -/
def accepted_forced_txs (cfg : BatchConfig) (forced : List ForcedTransaction) :
    List Transaction :=
  accepted_forced_aux cfg [] forced

/-- Step 2 of produce_batch: the number of normal transactions requested from the
pool, `max_batch_size` when no forced transaction was accepted and the saturating
difference `max_batch_size - |accepted forced|` otherwise. -/
def max_normal_txs (cfg : BatchConfig) (accepted_forced : List Transaction) : Nat :=
  if accepted_forced.isEmpty then cfg.max_batch_size
  else cfg.max_batch_size - accepted_forced.length

/-- Pool drain (TransactionPool::get_pending, src/pool/tx_pool.rs): removes and
returns up to `max` transactions from the front in FIFO order; only the returned
list matters to batch production. -/
def get_pending (pool : List UserTransaction) (max : Nat) : List UserTransaction :=
  pool.take max

/-- Step 2a of produce_batch: the drained normal transactions are tested in pool
order against the running combined list (accepted forced plus already accepted
normal transactions); each accepted one is appended to both running lists and
the iteration breaks at the first failure. The function carries the combined
list and returns the accepted normal transactions. -/
def accepted_normal_txs (cfg : BatchConfig) :
    List Transaction → List UserTransaction → List Transaction
  | _, [] => []
  | combined, tx :: rest =>
    if can_add_transaction cfg combined (Transaction.Normal tx) then
      Transaction.Normal tx ::
        accepted_normal_txs cfg (combined ++ [Transaction.Normal tx]) rest
    else []

/-- Batch production (BatchOrchestrator::produce_batch, src/batch/orchestrator.rs):
drain all forced transactions and gas-filter them, drain up to the remaining count
budget of normal transactions and gas-filter them stopping at the first failure,
return `none` when both accepted lists are empty, otherwise seal the concatenation
(accepted forced first, then accepted normal in pool order; the Scheduler owned by
the orchestrator is never invoked here). The forced queue and pool contents and
the engine counter are passed explicitly. -/
def produce_batch (cfg : BatchConfig) (next_batch_id : Nat)
    (forced : List ForcedTransaction) (pool : List UserTransaction) (now : Nat) :
    Option Batch :=
  let accepted_forced := accepted_forced_txs cfg forced
  let normal_txs := get_pending pool (max_normal_txs cfg accepted_forced)
  let accepted_normal := accepted_normal_txs cfg accepted_forced normal_txs
  if accepted_forced.isEmpty && accepted_normal.isEmpty then none
  else some (create_batch next_batch_id (accepted_forced ++ accepted_normal) now)

/-! Concrete sample values used by the claim checks below. -/

/-- Recovery oracle of a well signed transaction: recovery succeeds and returns
the claimed sender. -/
def goodRecover : UserTransaction → Option Nat :=
  fun tx => some tx.fromAddr

/-- Empty state cache. -/
def cacheEmpty : StateCacheMap :=
  fun _ => none

/-- User transaction whose admission arithmetic overflows 256 bits:
`value + gas_price * 21000 = (2 ^ 256 - 1) + 21000 ≥ 2 ^ 256`. -/
def txOverflow : UserTransaction :=
  ⟨1, 2, U256_MOD - 1, 0, 1, 21000, 0, 0, none⟩

/-- Small user transaction (value 1, gas price 1). -/
def uSmall : UserTransaction :=
  ⟨1, 2, 1, 0, 1, 21000, 0, 0, none⟩

/-- Pool transaction N1 of spec scenario 3: gas price 1000. -/
def uN1 : UserTransaction :=
  ⟨1, 2, 0, 0, 1000, 21000, 0, 0, none⟩

/-- Pool transaction N2 of spec scenario 3: gas price 500. -/
def uN2 : UserTransaction :=
  ⟨1, 2, 0, 1, 500, 21000, 0, 0, none⟩

/-- Forced transaction F1 of spec scenario 3 (nonce 100). -/
def fF1 : ForcedTransaction :=
  ⟨11, 3, 4, 0, 100, 21000, 5, 1, ForcedEventType.Deposit, 0⟩

/-- Forced transaction F2 of spec scenario 3 (nonce 101). -/
def fF2 : ForcedTransaction :=
  ⟨12, 3, 4, 0, 101, 21000, 6, 1, ForcedEventType.Deposit, 0⟩

/-- Pool transaction with gas limit 40000 (first of spec scenario 4). -/
def uG40a : UserTransaction :=
  ⟨1, 2, 0, 0, 1, 40000, 0, 0, none⟩

/-- Pool transaction with gas limit 40000 (second of spec scenario 4). -/
def uG40b : UserTransaction :=
  ⟨1, 2, 0, 1, 1, 40000, 0, 0, none⟩

/-- Pool transaction with gas limit 30000 (third of spec scenario 4). -/
def uG30 : UserTransaction :=
  ⟨1, 2, 0, 2, 1, 30000, 0, 0, none⟩

/-- Pool transaction with gas limit 10000 (fourth of spec scenario 4). -/
def uG10 : UserTransaction :=
  ⟨1, 2, 0, 3, 1, 10000, 0, 0, none⟩

/-- Pool transaction with the largest possible u64 gas limit. -/
def uHuge1 : UserTransaction :=
  ⟨1, 2, 0, 0, 1, U64_MAX, 0, 0, none⟩

/-- Second pool transaction with the largest possible u64 gas limit. -/
def uHuge2 : UserTransaction :=
  ⟨1, 2, 0, 1, 1, U64_MAX, 0, 0, none⟩

/-- Pool transaction with gas limit 1. -/
def uGas1 : UserTransaction :=
  ⟨1, 2, 0, 2, 1, 1, 0, 0, none⟩

/-- Pool transaction with gas limit 5. -/
def uGas5 : UserTransaction :=
  ⟨1, 2, 0, 3, 1, 5, 0, 0, none⟩

/-- TimeBoost sample transaction (timestamp 2000, boost bid 500, gas price 100). -/
def uTB1 : UserTransaction :=
  ⟨1, 2, 0, 0, 100, 21000, 0, 2000, some 500⟩

/-- TimeBoost sample transaction (timestamp 2500, boost bid 500, gas price 100). -/
def uTB2 : UserTransaction :=
  ⟨1, 2, 0, 1, 100, 21000, 0, 2500, some 500⟩

/-- Batch configuration with generous caps (count 10, gas 1000000). -/
def cfgC1 : BatchConfig := ⟨10, 5000, 1, 1000000⟩

/-- Batch configuration with count cap 1 and generous gas cap. -/
def cfgC2 : BatchConfig := ⟨1, 5000, 1, 1000000⟩

/-- Batch configuration whose gas cap is the largest u64 value. -/
def cfgC4 : BatchConfig := ⟨2, 5000, 1, U64_MAX⟩

/-- Batch configuration of spec scenario 4: gas cap 100000. -/
def cfgC5 : BatchConfig := ⟨10, 5000, 1, 100000⟩

/-- Batch configuration with gas cap 10. -/
def cfgC9 : BatchConfig := ⟨10, 5000, 1, 10⟩

/-! Helper lemmas. -/

/-- Sum of gas limits distributes over list append. -/
theorem sum_gas_append (a b : List Transaction) :
    sum_gas (a ++ b) = sum_gas a + sum_gas b := by
  simp [sum_gas]

/-- Inserting an element that the filter rejects does not change the filtered list. -/
theorem filter_orderedInsert_of_neg {α : Type} (r : α → α → Prop) [DecidableRel r]
    (p : α → Bool) (a : α) (hpa : p a = false) (l : List α) :
    (l.orderedInsert r a).filter p = l.filter p := by
  rw [List.orderedInsert_eq_take_drop, List.filter_append, List.filter_cons, hpa]
  simp only [Bool.false_eq_true, if_false]
  rw [← List.filter_append, List.takeWhile_append_dropWhile]

/-- Inserting an element that the filter keeps, when the order relation lets it
pass no other kept element, prepends it to the filtered list. -/
theorem filter_orderedInsert_of_pos {α : Type} (r : α → α → Prop) [DecidableRel r]
    (p : α → Bool) (a : α) (hpa : p a = true) (hr : ∀ b, p b = true → r a b)
    (l : List α) :
    (l.orderedInsert r a).filter p = a :: l.filter p := by
  rw [List.orderedInsert_eq_take_drop, List.filter_append, List.filter_cons, hpa]
  have htake : (l.takeWhile fun b => decide ¬r a b).filter p = [] := by
    rw [List.filter_eq_nil_iff]
    intro b hb hpb
    have hmem := List.mem_takeWhile_imp hb
    simp only [decide_eq_true_eq] at hmem
    exact hmem (hr b hpb)
  have hl : l.filter p =
      ((l.takeWhile fun b => decide ¬r a b).filter p) ++
        ((l.dropWhile fun b => decide ¬r a b).filter p) := by
    rw [← List.filter_append, List.takeWhile_append_dropWhile]
  rw [htake, hl, htake]
  simp

/-- Stability of insertion sort: a filter keeping only elements that are mutual
ties of the order relation is unchanged by sorting. -/
theorem filter_insertionSort_key {α : Type} (r : α → α → Prop) [DecidableRel r]
    (p : α → Bool) (hp : ∀ a b, p a = true → p b = true → r a b) (l : List α) :
    (l.insertionSort r).filter p = l.filter p := by
  induction l with
  | nil => rfl
  | cons a l ih =>
    show ((l.insertionSort r).orderedInsert r a).filter p = (a :: l).filter p
    cases hpa : p a with
    | false =>
      rw [filter_orderedInsert_of_neg r p a hpa, ih, List.filter_cons, hpa]
      simp
    | true =>
      rw [filter_orderedInsert_of_pos r p a hpa (fun b => hp a b hpa), ih,
        List.filter_cons, hpa]
      simp

/-- The accepted normal transactions are never more numerous than the drained ones. -/
theorem accepted_normal_txs_length_le (cfg : BatchConfig) :
    ∀ (normals : List UserTransaction) (acc : List Transaction),
      (accepted_normal_txs cfg acc normals).length ≤ normals.length := by
  intro normals
  induction normals with
  | nil => intro acc; simp [accepted_normal_txs]
  | cons tx rest ih =>
    intro acc
    simp only [accepted_normal_txs]
    split
    · simpa using ih (acc ++ [Transaction.Normal tx])
    · simp

/-- When the gas cap is strictly below the u64 saturation point, a positive gas
gate answer really bounds the exact extended sum by the cap. -/
theorem can_add_le (cfg : BatchConfig) (cur : List Transaction) (t : Transaction)
    (hmax : cfg.max_gas_limit < U64_MAX) (hsum : sum_gas cur ≤ cfg.max_gas_limit)
    (hc : can_add_transaction cfg cur t = true) :
    sum_gas cur + t.gas_limit ≤ cfg.max_gas_limit := by
  have hmod : sum_gas_u64 cur = sum_gas cur := by
    unfold sum_gas_u64
    apply Nat.mod_eq_of_lt
    unfold U64_MAX U64_MOD at *
    omega
  unfold can_add_transaction at hc
  rw [hmod] at hc
  have hle := of_decide_eq_true hc
  rcases Nat.le_total (sum_gas cur + t.gas_limit) U64_MAX with h1 | h1
  · rwa [min_eq_left h1] at hle
  · rw [min_eq_right h1] at hle
    omega

/-- Gas bound carried through the forced-transaction filtering loop. -/
theorem accepted_forced_aux_gas (cfg : BatchConfig)
    (hmax : cfg.max_gas_limit < U64_MAX) :
    ∀ (forced : List ForcedTransaction) (acc : List Transaction),
      sum_gas acc ≤ cfg.max_gas_limit →
      sum_gas (accepted_forced_aux cfg acc forced) ≤ cfg.max_gas_limit := by
  intro forced
  induction forced with
  | nil => intro acc h; simpa [accepted_forced_aux] using h
  | cons tx rest ih =>
    intro acc h
    simp only [accepted_forced_aux]
    split
    · apply ih
      have hstep := can_add_le cfg acc (Transaction.Forced tx) hmax h (by assumption)
      simpa [sum_gas_append, sum_gas, Transaction.gas_limit] using hstep
    · exact ih acc h

/-- Gas bound carried through the normal-transaction filtering loop: the combined
running list plus everything accepted stays within the cap. -/
theorem accepted_normal_txs_gas (cfg : BatchConfig)
    (hmax : cfg.max_gas_limit < U64_MAX) :
    ∀ (normals : List UserTransaction) (combined : List Transaction),
      sum_gas combined ≤ cfg.max_gas_limit →
      sum_gas combined + sum_gas (accepted_normal_txs cfg combined normals) ≤
        cfg.max_gas_limit := by
  intro normals
  induction normals with
  | nil => intro combined h; simpa [accepted_normal_txs, sum_gas] using h
  | cons tx rest ih =>
    intro combined h
    simp only [accepted_normal_txs]
    split
    · rename_i hc
      have hstep := can_add_le cfg combined (Transaction.Normal tx) hmax h hc
      have hrec := ih (combined ++ [Transaction.Normal tx])
        (by simpa [sum_gas_append, sum_gas, Transaction.gas_limit] using hstep)
      rw [sum_gas_append] at hrec
      simp only [sum_gas, List.map_cons, List.sum_cons, Transaction.gas_limit] at hrec ⊢
      omega
    · simpa [sum_gas] using h

/-- The validator agrees with the spec description of validation on every
transaction whose admission arithmetic stays below 2 ^ 256. -/
theorem validate_no_overflow_eq_spec (recover : UserTransaction → Option Nat)
    (cache : StateCacheMap) (tx : UserTransaction)
    (h : tx.value + tx.gas_price * 21000 < U256_MOD) :
    validate recover cache tx = some (validateSpec recover cache tx) := by
  have hmul : tx.gas_price * 21000 < U256_MOD := by omega
  unfold validate validateSpec verify_signature check_nonce check_balance
    u256CheckedMul u256CheckedAdd
  cases hrec : recover tx with
  | none => rfl
  | some signer =>
    by_cases hs : signer ≠ tx.fromAddr
    · simp [hs]
    · by_cases hn : tx.nonce ≠ (get_or_init_account cache tx.fromAddr).nonce
      · simp [hs, hn]
      · by_cases hb : (get_or_init_account cache tx.fromAddr).balance <
            tx.value + tx.gas_price * 21000
        · simp [hs, hn, hmul, h, hb]
        · simp [hs, hn, hmul, h, hb]

/-- The normal gas gate keeps exactly a prefix of the drained pool: there is a
cut point k such that the accepted normal transactions are the first k drained
ones, every one of those passed the gate against its running combined list, and
when anything is dropped the transaction at the cut point failed the gate. -/
theorem accepted_normal_txs_take (cfg : BatchConfig) :
    ∀ (normals : List UserTransaction) (acc : List Transaction),
      ∃ k, k ≤ normals.length ∧
        accepted_normal_txs cfg acc normals = (normals.take k).map Transaction.Normal ∧
        (∀ i, i < k → ∀ hilen : i < normals.length,
          can_add_transaction cfg (acc ++ (normals.take i).map Transaction.Normal)
            (Transaction.Normal (normals.get ⟨i, hilen⟩)) = true) ∧
        (∀ hk : k < normals.length,
          can_add_transaction cfg (acc ++ (normals.take k).map Transaction.Normal)
            (Transaction.Normal (normals.get ⟨k, hk⟩)) = false) := by
  intro normals
  induction normals with
  | nil =>
    intro acc
    refine ⟨0, Nat.le_refl 0, rfl, ?_, ?_⟩
    · intro i hi hilen
      omega
    · intro hk
      simp at hk
  | cons tx rest ih =>
    intro acc
    by_cases hc : can_add_transaction cfg acc (Transaction.Normal tx) = true
    · obtain ⟨k, hk1, hk2, hk3, hk4⟩ := ih (acc ++ [Transaction.Normal tx])
      refine ⟨k + 1, by simpa using hk1, ?_, ?_, ?_⟩
      · simp only [accepted_normal_txs, if_pos hc, hk2, List.take_succ_cons,
          List.map_cons]
      · intro i hi hilen
        match i with
        | 0 => simpa using hc
        | Nat.succ j =>
          have hjlen : j < rest.length := by
            simp at hilen
            omega
          have hj := hk3 j (by omega) hjlen
          simpa [List.take_succ_cons, List.append_assoc] using hj
      · intro hk
        have hklen : k < rest.length := by
          simp at hk
          omega
        have hj := hk4 hklen
        simpa [List.take_succ_cons, List.append_assoc] using hj
    · refine ⟨0, Nat.zero_le _, ?_, ?_, ?_⟩
      · simp only [accepted_normal_txs, if_neg hc, List.take_zero, List.map_nil]
      · intro i hi hilen
        omega
      · intro hk
        simpa using Bool.not_eq_true _ ▸ hc

/-! Claim checks. -/

/-- C1: produce_batch is claimed to invoke the scheduler on the accepted forced
and accepted normal transactions, so that with FeePriority the normal part of
the sealed batch is in gas-price order. Evaluating the embedded produce_batch at
forced [F1, F2] and pool [N2 (gas price 500), N1 (gas price 1000)] shows the
sealed batch keeps raw pool order [N2, N1], while Scheduler::schedule on the same
inputs yields policy order [N1, N2]: produce_batch never calls the scheduler. -/
theorem c1_produce_batch_bypasses_scheduler :
    produce_batch cfgC1 1 [fF1, fF2] [uN2, uN1] 0 =
      some (Batch.mk 1 [Transaction.Forced fF1, Transaction.Forced fF2,
        Transaction.Normal uN2, Transaction.Normal uN1] 0 0) ∧
    schedule FeePriorityPolicy.order_transactions [fF1, fF2] [uN2, uN1] =
      [Transaction.Forced fF1, Transaction.Forced fF2,
        Transaction.Normal uN1, Transaction.Normal uN2] ∧
    (Batch.mk 1 [Transaction.Forced fF1, Transaction.Forced fF2,
        Transaction.Normal uN2, Transaction.Normal uN1] 0 0).transactions ≠
      schedule FeePriorityPolicy.order_transactions [fF1, fF2] [uN2, uN1] :=
  ⟨by decide, by decide, by decide⟩

/-- C2 counterexample: with count cap 1 and two gas-fitting forced transactions,
the sealed batch holds 2 transactions, exceeding max_batch_size: forced
transactions are never count-capped. -/
theorem c2_counterexample_forced_exceed_count_cap :
    produce_batch cfgC2 1 [fF1, fF2] [] 0 =
      some (Batch.mk 1 [Transaction.Forced fF1, Transaction.Forced fF2] 0 0) ∧
    cfgC2.max_batch_size <
      (Batch.mk 1 [Transaction.Forced fF1, Transaction.Forced fF2] 0 0).transactions.length :=
  ⟨by decide, by decide⟩

/-- C2 (amended): every sealed batch has at most
max(max_batch_size, number of accepted forced transactions) transactions;
the count cap only limits the normal allowance, so the max_batch_size bound
holds exactly when the accepted forced transactions do not already exceed it. -/
theorem c2_batch_count_bound (cfg : BatchConfig) (next_batch_id : Nat)
    (forced : List ForcedTransaction) (pool : List UserTransaction) (now : Nat)
    (b : Batch) (h : produce_batch cfg next_batch_id forced pool now = some b) :
    b.transactions.length ≤
      max cfg.max_batch_size (accepted_forced_txs cfg forced).length := by
  simp only [produce_batch] at h
  split at h
  · exact Option.noConfusion h
  · have hb := Option.some.inj h
    subst hb
    simp only [create_batch, List.length_append]
    set af := accepted_forced_txs cfg forced with hafdef
    have h1 := accepted_normal_txs_length_le cfg
      (get_pending pool (max_normal_txs cfg af)) af
    have h2 : (get_pending pool (max_normal_txs cfg af)).length ≤
        max_normal_txs cfg af := by
      simp [get_pending]
    have h3 : af.length + max_normal_txs cfg af ≤
        max cfg.max_batch_size af.length := by
      unfold max_normal_txs
      split
      · rename_i hempty
        have hnil : af = [] := by simpa using hempty
        simp [hnil]
      · rcases Nat.le_total af.length cfg.max_batch_size with hle | hle
        · have heq : af.length + (cfg.max_batch_size - af.length) =
              cfg.max_batch_size := by omega
          rw [heq]
          exact le_max_left _ _
        · have heq : cfg.max_batch_size - af.length = 0 := by omega
          rw [heq, Nat.add_zero]
          exact le_max_right cfg.max_batch_size af.length
    exact le_trans (Nat.add_le_add_left (le_trans h1 h2) _) h3

/-- C2 witness: the count bound evaluated on a concrete one-transaction batch. -/
theorem c2_batch_count_bound_witness :
    (Batch.mk 1 [Transaction.Normal uG40a] 0 0).transactions.length ≤
      max cfgC5.max_batch_size (accepted_forced_txs cfgC5 []).length :=
  c2_batch_count_bound cfgC5 1 [] [uG40a] 0
    (Batch.mk 1 [Transaction.Normal uG40a] 0 0) (by decide)

/-- C3: at a transaction whose value plus admission fee leaves the 256-bit
range, the balance check hits the panicking U256 addition (modelled by none)
instead of returning InsufficientBalance: the computation is neither saturating
nor overflow-checked. -/
theorem c3_check_balance_overflow_aborts :
    check_balance cacheEmpty txOverflow = none := rfl

/-- C4 counterexample: with max_gas_limit equal to the largest u64 value, two
transactions of maximal gas limit are both admitted by the saturating gate, and
the exact gas sum of the sealed batch exceeds max_gas_limit. -/
theorem c4_counterexample_gas_cap_u64_max :
    produce_batch cfgC4 1 [] [uHuge1, uHuge2] 0 =
      some (Batch.mk 1 [Transaction.Normal uHuge1, Transaction.Normal uHuge2] 0 0) ∧
    cfgC4.max_gas_limit <
      sum_gas (Batch.mk 1 [Transaction.Normal uHuge1,
        Transaction.Normal uHuge2] 0 0).transactions :=
  ⟨by decide, by decide⟩

/-- C4 (amended): for every configuration whose max_gas_limit is strictly below
the u64 saturation point, the exact sum of the gas limits of every sealed batch
is at most max_gas_limit, each forced transaction being gated against the
accumulating forced list and each normal one against the running combined list. -/
theorem c4_batch_gas_bound (cfg : BatchConfig) (next_batch_id : Nat)
    (forced : List ForcedTransaction) (pool : List UserTransaction) (now : Nat)
    (b : Batch) (hmax : cfg.max_gas_limit < U64_MAX)
    (h : produce_batch cfg next_batch_id forced pool now = some b) :
    sum_gas b.transactions ≤ cfg.max_gas_limit := by
  simp only [produce_batch] at h
  split at h
  · exact Option.noConfusion h
  · have hb := Option.some.inj h
    subst hb
    simp only [create_batch]
    rw [sum_gas_append]
    have h1 : sum_gas (accepted_forced_txs cfg forced) ≤ cfg.max_gas_limit := by
      unfold accepted_forced_txs
      apply accepted_forced_aux_gas cfg hmax forced []
      simp [sum_gas]
    exact accepted_normal_txs_gas cfg hmax
      (get_pending pool (max_normal_txs cfg (accepted_forced_txs cfg forced)))
      (accepted_forced_txs cfg forced) h1

/-- C4 witness: the gas bound evaluated on a concrete one-transaction batch. -/
theorem c4_batch_gas_bound_witness :
    sum_gas (Batch.mk 1 [Transaction.Normal uG40a] 0 0).transactions ≤
      cfgC5.max_gas_limit :=
  c4_batch_gas_bound cfgC5 1 [] [uG40a] 0
    (Batch.mk 1 [Transaction.Normal uG40a] 0 0) (by decide) (by decide)

/-- C5: the normal gas gate accepts exactly a prefix of the drained pool (it
stops at the first failing transaction and never tries a later one), and on the
spec scenario with cap 100000 and gas limits [40000, 40000, 30000, 10000] the
sealed batch holds exactly the first two transactions. -/
theorem c5_gas_gate_stops_at_first_failure :
    (∀ (cfg : BatchConfig) (acc : List Transaction) (normals : List UserTransaction),
      ∃ k, k ≤ normals.length ∧
        accepted_normal_txs cfg acc normals = (normals.take k).map Transaction.Normal ∧
        (∀ i, i < k → ∀ hilen : i < normals.length,
          can_add_transaction cfg (acc ++ (normals.take i).map Transaction.Normal)
            (Transaction.Normal (normals.get ⟨i, hilen⟩)) = true) ∧
        (∀ hk : k < normals.length,
          can_add_transaction cfg (acc ++ (normals.take k).map Transaction.Normal)
            (Transaction.Normal (normals.get ⟨k, hk⟩)) = false)) ∧
    produce_batch cfgC5 1 [] [uG40a, uG40b, uG30, uG10] 0 =
      some (Batch.mk 1 [Transaction.Normal uG40a, Transaction.Normal uG40b] 0 0) :=
  ⟨fun cfg acc normals => accepted_normal_txs_take cfg normals acc, by decide⟩

/-- C5 witness: the prefix characterisation instantiated on a concrete pool. -/
theorem c5_gas_gate_witness :
    ∃ k, k ≤ [uG40a].length ∧
      accepted_normal_txs cfgC5 [] [uG40a] = ([uG40a].take k).map Transaction.Normal ∧
      (∀ i, i < k → ∀ hilen : i < [uG40a].length,
        can_add_transaction cfgC5 (([] : List Transaction) ++
            ([uG40a].take i).map Transaction.Normal)
          (Transaction.Normal ([uG40a].get ⟨i, hilen⟩)) = true) ∧
      (∀ hk : k < [uG40a].length,
        can_add_transaction cfgC5 (([] : List Transaction) ++
            ([uG40a].take k).map Transaction.Normal)
          (Transaction.Normal ([uG40a].get ⟨k, hk⟩)) = false) :=
  c5_gas_gate_stops_at_first_failure.1 cfgC5 [] [uG40a]

/-- C6 counterexample: a correctly signed transaction with the expected nonce
whose value plus fee overflows 256 bits makes the validator abort (none), while
the claim prescribes the InsufficientBalance outcome computed by the spec-side
description. -/
theorem c6_counterexample_validator_aborts_on_overflow :
    validate goodRecover cacheEmpty txOverflow = none ∧
    validateSpec goodRecover cacheEmpty txOverflow =
      Except.error (ValidationError.InsufficientBalance (U256_MOD - 1 + 21000) 0) :=
  ⟨rfl, rfl⟩

/-- C6 (amended): on every transaction whose value plus gas_price * 21000 stays
below 2 ^ 256, the validator performs the signature, nonce and balance checks in
that order with the first failure determining the error, exactly as the spec-side
description validateSpec states. -/
theorem c6_validation_ordered_checks (recover : UserTransaction → Option Nat)
    (cache : StateCacheMap) (tx : UserTransaction)
    (h : tx.value + tx.gas_price * 21000 < U256_MOD) :
    validate recover cache tx = some (validateSpec recover cache tx) :=
  validate_no_overflow_eq_spec recover cache tx h

/-- C6 witness: the ordered-checks equality evaluated on a small transaction. -/
theorem c6_validation_ordered_checks_witness :
    validate goodRecover cacheEmpty uSmall =
      some (validateSpec goodRecover cacheEmpty uSmall) :=
  c6_validation_ordered_checks goodRecover cacheEmpty uSmall (by decide)

/-- C7 counterexample: on the overflowing transaction the admission operation
aborts inside the validator (none) and no SoftConfirmation is produced. -/
theorem c7_counterexample_admission_aborts_on_overflow :
    handle_send_transaction goodRecover (fun _ => 0) cacheEmpty [] txOverflow 0 =
      none := rfl

/-- C7 (amended): on every transaction whose admission arithmetic stays below
2 ^ 256, the admission operation returns exactly one SoftConfirmation carrying
the transaction hash: on validation success it increments the sender nonce,
appends the transaction to the pool and reports Accepted; on validation failure
it reports Rejected with the display string of the error and leaves the cache
and the pool unchanged. -/
theorem c7_admission_exactly_one_confirmation (recover : UserTransaction → Option Nat)
    (txHash : UserTransaction → Nat) (cache : StateCacheMap)
    (pool : List UserTransaction) (tx : UserTransaction) (now : Nat)
    (h : tx.value + tx.gas_price * 21000 < U256_MOD) :
    ∃ conf cache2 pool2,
      handle_send_transaction recover txHash cache pool tx now =
        some (conf, cache2, pool2) ∧
      conf.tx_hash = txHash tx ∧ conf.timestamp = now ∧
      ((validate recover cache tx = some (Except.ok ()) ∧
        conf.status = ConfirmationStatus.Accepted ∧
        cache2 = increment_nonce cache tx.fromAddr ∧ pool2 = pool ++ [tx]) ∨
       (∃ e, validate recover cache tx = some (Except.error e) ∧
        conf.status = ConfirmationStatus.Rejected (valErrorDisplay e) ∧
        cache2 = cache ∧ pool2 = pool)) := by
  have hv := validate_no_overflow_eq_spec recover cache tx h
  cases hspec : validateSpec recover cache tx with
  | ok u =>
    cases u
    rw [hspec] at hv
    refine ⟨SoftConfirmation.mk (txHash tx) ConfirmationStatus.Accepted now,
      increment_nonce cache tx.fromAddr, pool ++ [tx], ?_, rfl, rfl,
      Or.inl ⟨hv, rfl, rfl, rfl⟩⟩
    unfold handle_send_transaction
    rw [hv]
  | error e =>
    rw [hspec] at hv
    refine ⟨SoftConfirmation.mk (txHash tx)
        (ConfirmationStatus.Rejected (valErrorDisplay e)) now,
      cache, pool, ?_, rfl, rfl, Or.inr ⟨e, hv, rfl, rfl, rfl⟩⟩
    unfold handle_send_transaction
    rw [hv]

/-- C7 witness: the admission contract evaluated on a small transaction (the
empty cache rejects it for insufficient balance, leaving state untouched). -/
theorem c7_admission_witness :
    ∃ conf cache2 pool2,
      handle_send_transaction goodRecover (fun t => t.nonce) cacheEmpty [] uSmall 7 =
        some (conf, cache2, pool2) ∧
      conf.tx_hash = (fun t : UserTransaction => t.nonce) uSmall ∧
      conf.timestamp = 7 ∧
      ((validate goodRecover cacheEmpty uSmall = some (Except.ok ()) ∧
        conf.status = ConfirmationStatus.Accepted ∧
        cache2 = increment_nonce cacheEmpty uSmall.fromAddr ∧
        pool2 = ([] : List UserTransaction) ++ [uSmall]) ∨
       (∃ e, validate goodRecover cacheEmpty uSmall = some (Except.error e) ∧
        conf.status = ConfirmationStatus.Rejected (valErrorDisplay e) ∧
        cache2 = cacheEmpty ∧ pool2 = ([] : List UserTransaction))) :=
  c7_admission_exactly_one_confirmation goodRecover (fun t => t.nonce)
    cacheEmpty [] uSmall 7 (by decide)

/-- C8: all four policies are stable: FCFS is the identity, and for FeePriority,
TimeBoost (with a positive window) and FairBFT the subsequence of transactions
sharing any fixed value of the policy key is returned unchanged, so key-equal
transactions keep their input order. -/
theorem c8_policies_stable_sort :
    (∀ l : List UserTransaction, FcfsPolicy.order_transactions l = l) ∧
    (∀ (l : List UserTransaction) (g : Nat),
      (FeePriorityPolicy.order_transactions l).filter
          (fun t => decide (t.gas_price = g)) =
        l.filter (fun t => decide (t.gas_price = g))) ∧
    (∀ w : Nat, 0 < w → ∀ (l : List UserTransaction) (k : Nat × Nat × Nat),
      ∃ out, TimeBoostPolicy.order_transactions w l = some out ∧
        out.filter (fun t => decide (timeBoostKey w t = k)) =
          l.filter (fun t => decide (timeBoostKey w t = k))) ∧
    (∀ (l : List UserTransaction) (s : Nat),
      (FairBftPolicy.order_transactions l).filter
          (fun t => decide (t.timestamp = s)) =
        l.filter (fun t => decide (t.timestamp = s))) := by
  refine ⟨fun l => rfl, ?_, ?_, ?_⟩
  · intro l g
    apply filter_insertionSort_key
    intro a b ha hb
    have ha := of_decide_eq_true ha
    have hb := of_decide_eq_true hb
    unfold feePriorityLe
    rw [ha, hb]
  · intro w hw l k
    refine ⟨l.insertionSort (timeBoostLe w), ?_, ?_⟩
    · unfold TimeBoostPolicy.order_transactions
      rw [if_neg (fun hcon => (Nat.pos_iff_ne_zero.mp hw) hcon.2)]
    · apply filter_insertionSort_key
      intro a b ha hb
      have ha := of_decide_eq_true ha
      have hb := of_decide_eq_true hb
      have hab : timeBoostKey w a = timeBoostKey w b := ha.trans hb.symm
      unfold timeBoostKey at hab
      simp only [Prod.mk.injEq] at hab
      obtain ⟨h1, h2, h3⟩ := hab
      unfold timeBoostLe timeBoostCmp
      rw [h1, h2, h3]
      simp [natCmp]
  · intro l s
    apply filter_insertionSort_key
    intro a b ha hb
    have ha := of_decide_eq_true ha
    have hb := of_decide_eq_true hb
    unfold fairBftLe
    rw [ha, hb]

/-- C8 witness: TimeBoost stability instantiated at window 5000 on two
transactions sharing the key (0, 500, 100). -/
theorem c8_policies_stable_sort_witness :
    ∃ out, TimeBoostPolicy.order_transactions 5000 [uTB1, uTB2] = some out ∧
      out.filter (fun t => decide (timeBoostKey 5000 t = (0, 500, 100))) =
        [uTB1, uTB2].filter (fun t => decide (timeBoostKey 5000 t = (0, 500, 100))) :=
  c8_policies_stable_sort.2.2.1 5000 (by decide) [uTB1, uTB2] (0, 500, 100)

/-- C9 counterexample: the running u64 sum of the gate wraps: with cap 10,
current list [gas u64 max, gas 1] and candidate gas 5 the source gate answers
true (the wrapped sum is 0), while the spec-side fully saturating computation
answers false. -/
theorem c9_counterexample_wrapping_running_sum :
    can_add_transaction cfgC9 [Transaction.Normal uHuge1, Transaction.Normal uGas1]
      (Transaction.Normal uGas5) = true ∧
    can_add_saturating_spec cfgC9 [Transaction.Normal uHuge1, Transaction.Normal uGas1]
      (Transaction.Normal uGas5) = false :=
  ⟨by decide, by decide⟩

/-- C9 (amended): the gate computes the running sum with wrapping u64 addition
and only the final addition of the candidate saturates; whenever the exact sum of
the current gas limits fits in u64 this coincides with the fully saturating
comparison of the spec. -/
theorem c9_can_add_u64_semantics (cfg : BatchConfig) (cur : List Transaction)
    (t : Transaction) (h : sum_gas cur < U64_MOD) :
    can_add_transaction cfg cur t = can_add_saturating_spec cfg cur t := by
  unfold can_add_transaction can_add_saturating_spec sum_gas_u64
  rw [Nat.mod_eq_of_lt h]

/-- C9 witness: the agreement evaluated on a small current list. -/
theorem c9_can_add_u64_semantics_witness :
    can_add_transaction cfgC9 [Transaction.Normal uGas1] (Transaction.Normal uGas5) =
      can_add_saturating_spec cfgC9 [Transaction.Normal uGas1]
        (Transaction.Normal uGas5) :=
  c9_can_add_u64_semantics cfgC9 [Transaction.Normal uGas1]
    (Transaction.Normal uGas5) (by decide)

/-- C10: the TimeBoost ordering is total for every positive window, and with a
zero window it divides by zero inside the comparator (modelled by none) on every
input of at least two transactions, which is when Rust sort_by invokes the
comparator. -/
theorem c10_timeboost_window_totality :
    (∀ (w : Nat) (l : List UserTransaction), 0 < w →
      (TimeBoostPolicy.order_transactions w l).isSome = true) ∧
    (∀ l : List UserTransaction, 2 ≤ l.length →
      TimeBoostPolicy.order_transactions 0 l = none) := by
  constructor
  · intro w l hw
    unfold TimeBoostPolicy.order_transactions
    rw [if_neg (fun hcon => (Nat.pos_iff_ne_zero.mp hw) hcon.2)]
    rfl
  · intro l hl
    unfold TimeBoostPolicy.order_transactions
    rw [if_pos ⟨hl, rfl⟩]

/-- C10 witness: totality at window 5 and the zero-window abort on two
transactions. -/
theorem c10_timeboost_window_totality_witness :
    (TimeBoostPolicy.order_transactions 5 [uTB1]).isSome = true ∧
    TimeBoostPolicy.order_transactions 0 [uTB1, uTB2] = none :=
  ⟨c10_timeboost_window_totality.1 5 [uTB1] (by decide),
    c10_timeboost_window_totality.2 [uTB1, uTB2] (by decide)⟩

end Sequencer
